import Mathlib

/-!
# Verification of the systemd socket-activation package

Shallow embedding of `systemd.go` from the `blitiri.com.ar/go/systemd`
repository.  The package recovers listening sockets passed by a process
supervisor via inherited file descriptors and the environment variables
`LISTEN_PID`, `LISTEN_FDS` and `LISTEN_FDNAMES`.

The embedding models:
* the process environment as three `Option String` fields (Go's `os.Getenv`
  returns `""` for an unset variable; `os.Unsetenv` sets the field to `none`);
* `os.File` values as records of the raw descriptor number and the synthetic
  name built by `os.NewFile`;
* `net.FileListener` as a world capability `conv : Nat → Bool` saying whether
  a given descriptor can be wrapped as a stream listener;
* the global mutable package state (`files`, `listeners`, `parseError`,
  `listenError`) as an explicit state record threaded through the functions;
* `syscall.CloseOnExec` as an append to a journal of descriptors whose
  close-on-exec flag was set.

All definitions are computable and follow the Go source line by line.
-/

set_option autoImplicit false

namespace Systemd

/-- A wrapped file descriptor, as produced by `os.NewFile(uintptr(fd), sysName)`. -/
structure GoFile where
  fd : Nat
  name : String
  deriving DecidableEq, Repr

/-- A listener obtained from `net.FileListener(f)`; it keeps the file it wraps. -/
structure GoListener where
  file : GoFile
  deriving DecidableEq, Repr

/-- The error values the package can produce.  `errPIDMismatch` models the
distinguished sentinel `ErrPIDMismatch`; the others model the distinct
`fmt.Errorf` values, keyed by the data interpolated into the message. -/
inductive GoError where
  | errPIDMismatch
  | badListenPid (s : String)
  | badListenFds (s : String)
  | badFdNames
  | listenFail (fd : Nat)
  | notFound (name : String)
  deriving DecidableEq, Repr

/-- First FD for listeners; 3 by definition (`firstFD` in the source). -/
def firstFD : Nat := 3

/-- Accumulate the decimal value of a digit string; `none` on a non-digit.
Models the digit loop of Go's `strconv.ParseInt` with base 10. -/
def digitsVal : List Char → Nat → Option Nat
  | [], acc => some acc
  | c :: rest, acc =>
      if c.isDigit then digitsVal rest (acc * 10 + (c.toNat - 48)) else none

/-- Finish `strconv.Atoi`: a non-empty digit string with a sign already
stripped, range-checked against a 64-bit `int`. -/
def atoiDigits (cs : List Char) (neg : Bool) : Option Int :=
  match cs with
  | [] => none
  | _ :: _ =>
      match digitsVal cs 0 with
      | none => none
      | some n =>
          let v : Int := if neg then -(n : Int) else (n : Int)
          if -(2 ^ 63) ≤ v ∧ v ≤ 2 ^ 63 - 1 then some v else none

/-- Go's `strconv.Atoi`: optional sign, then one or more decimal digits,
nothing else; fails on empty input and on 64-bit overflow. -/
def atoi (s : String) : Option Int :=
  match s.data with
  | '-' :: rest => atoiDigits rest true
  | '+' :: rest => atoiDigits rest false
  | cs => atoiDigits cs false

/-- Go's `strings.Split(s, ":")` on the character list: split at every colon,
keeping empty fields; the empty input yields one empty field. -/
def splitColonAux : List Char → List Char → List String
  | [], cur => [String.mk cur.reverse]
  | c :: rest, cur =>
      if c = ':' then String.mk cur.reverse :: splitColonAux rest []
      else splitColonAux rest (c :: cur)

/-- Go's `strings.Split(s, ":")`. -/
def splitColon (s : String) : List String :=
  splitColonAux s.data []

/-- `os.Getenv`: an unset variable reads as the empty string. -/
def getenv (o : Option String) : String := o.getD ""

/-- Read from a possibly-nil Go map of slices: a nil map and a missing key
both read as the empty slice. -/
def mapGet {α : Type} (m : Option (String → List α)) (s : String) : List α :=
  match m with
  | none => []
  | some f => f s

/-- `m[k] = append(m[k], v)` on a (total-function) Go map of slices. -/
def mapAppend {α : Type} (m : String → List α) (k : String) (v : α) :
    String → List α :=
  fun s => if s = k then m k ++ [v] else m s

/-- The capabilities of the surrounding world: the process id
(`os.Getpid`), whether `net.FileListener` succeeds on a given descriptor,
and the behaviour of `net.Listen`. -/
structure World where
  pid : Int
  conv : Nat → Bool
  netListen : String → String → Option GoListener × Option GoError

/-- The package's global mutable state: the three environment variables and
the four package-level variables (`files`, `listeners`, `parseError`,
`listenError`), plus a journal of the descriptors passed to
`syscall.CloseOnExec`. -/
structure St where
  envPid : Option String
  envFds : Option String
  envFdNames : Option String
  files : Option (String → List GoFile)
  listeners : Option (String → List GoListener)
  parseError : Option GoError
  listenError : Option GoError
  cloexec : List Nat

/-- The state at process start under a given environment: both maps nil,
no errors, no close-on-exec flags set by us. -/
def initSt (envPid envFds envFdNames : Option String) : St :=
  { envPid := envPid, envFds := envFds, envFdNames := envFdNames,
    files := none, listeners := none,
    parseError := none, listenError := none, cloexec := [] }

/-- The mutable state the descriptor loop of `parse` operates on. -/
structure LoopSt where
  files : String → List GoFile
  listeners : String → List GoListener
  listenError : Option GoError
  cloexec : List Nat

/-- `os.NewFile(uintptr(fd), fmt.Sprintf("[systemd-fd-%d-%v]", fd, name))`. -/
def mkFile (fd : Nat) (name : String) : GoFile :=
  { fd := fd, name := "[systemd-fd-" ++ toString fd ++ "-" ++ name ++ "]" }

/-- One iteration of the descriptor loop in `parse`: set close-on-exec,
wrap the descriptor as a file under its name, and either register the
listener or record the conversion error. -/
def processOne (conv : Nat → Bool) (fd : Nat) (name : String)
    (ls : LoopSt) : LoopSt :=
  let f := mkFile fd name
  let ls' : LoopSt :=
    { ls with cloexec := ls.cloexec ++ [fd],
              files := mapAppend ls.files name f }
  if conv fd then
    { ls' with listeners := mapAppend ls'.listeners name { file := f } }
  else
    { ls' with listenError := some (GoError.listenFail fd) }

/-- The descriptor loop of `parse`: `for i := 0; i < nfds; i++`, with the
descriptor number starting at `fd` and the per-descriptor names given in
order. -/
def processFds (conv : Nat → Bool) (fd : Nat) (names : List String)
    (ls : LoopSt) : LoopSt :=
  match names with
  | [] => ls
  | n :: rest => processFds conv (fd + 1) rest (processOne conv fd n ls)

/-- The `parse` function of the package, as a state transformer.  Mirrors
the Go source: the `files != nil` guard, the empty-variable early return,
`Atoi` of `LISTEN_PID` and comparison with our pid, `Atoi` of `LISTEN_FDS`,
the `LISTEN_FDNAMES` arity check, the descriptor loop, and finally
unsetting the three variables. -/
def parse (w : World) (st : St) : St :=
  match st.files with
  | some _ => st
  | none =>
    let pidStr := getenv st.envPid
    let nfdsStr := getenv st.envFds
    let fdNamesStr := getenv st.envFdNames
    let fdNames := splitColon fdNamesStr
    if pidStr = "" ∨ nfdsStr = "" then st
    else
      match atoi pidStr with
      | none => { st with parseError := some (GoError.badListenPid pidStr) }
      | some pid =>
        if pid ≠ w.pid then { st with parseError := some GoError.errPIDMismatch }
        else
          match atoi nfdsStr with
          | none => { st with parseError := some (GoError.badListenFds nfdsStr) }
          | some nfds =>
            if fdNamesStr ≠ "" ∧ 0 < nfds ∧ (fdNames.length : Int) ≠ nfds then
              { st with parseError := some GoError.badFdNames }
            else
              let names :=
                if fdNamesStr = "" then List.replicate nfds.toNat "" else fdNames
              let ls0 : LoopSt :=
                { files := fun _ => [], listeners := fun _ => [],
                  listenError := st.listenError, cloexec := st.cloexec }
              let ls := processFds w.conv firstFD (names.take nfds.toNat) ls0
              { st with files := some ls.files, listeners := some ls.listeners,
                        listenError := ls.listenError, cloexec := ls.cloexec,
                        envPid := none, envFds := none, envFdNames := none }

/-- `Listeners()`: run `parse`, then return the listener map together with
`parseError` if set, else `listenError`.  The first component is the state
after the call. -/
def Listeners (w : World) (st : St) :
    St × (Option (String → List GoListener) × Option GoError) :=
  let st' := parse w st
  match st'.parseError with
  | some e => (st', (st'.listeners, some e))
  | none => (st', (st'.listeners, st'.listenError))

/-- `OneListener(name)`: run `parse`; surface `parseError`, then
`listenError`; otherwise the first listener registered under `name`, or
`(nil, nil)` when there is none. -/
def OneListener (w : World) (name : String) (st : St) :
    St × (Option GoListener × Option GoError) :=
  let st' := parse w st
  match st'.parseError with
  | some e => (st', (none, some e))
  | none =>
    match st'.listenError with
    | some e => (st', (none, some e))
    | none =>
      match mapGet st'.listeners name with
      | [] => (st', (none, none))
      | l :: _ => (st', (some l, none))

/-- `Files()`: run `parse`, then return the file map and `parseError`. -/
def Files (w : World) (st : St) :
    St × (Option (String → List GoFile) × Option GoError) :=
  let st' := parse w st
  (st', (st'.files, st'.parseError))

/-- Go's `strings.HasPrefix(s, "&")`. -/
def hasAmpPrefix (s : String) : Bool :=
  match s.data with
  | '&' :: _ => true
  | _ => false

/-- Go's `s[1:]` for a string whose first byte is the one-byte `"&"`. -/
def dropFirst (s : String) : String :=
  match s.data with
  | [] => ""
  | _ :: rest => String.mk rest

/-- `Listen(netw, laddr)`: an address starting with `"&"` names a systemd
socket and is resolved through `OneListener`, with a not-found error when
that returns neither a listener nor an error; otherwise delegate to
`net.Listen`. -/
def Listen (w : World) (netw laddr : String) (st : St) :
    St × (Option GoListener × Option GoError) :=
  if hasAmpPrefix laddr then
    let name := dropFirst laddr
    let p := OneListener w name st
    let lis := p.2.1
    let err := p.2.2
    let err' :=
      if lis.isNone ∧ err.isNone then some (GoError.notFound name) else err
    (p.1, (lis, err'))
  else
    (st, w.netListen netw laddr)

/-! ## Characterisation of the descriptor loop -/

/-- The files the loop appends under name `s`, when the descriptors start at
`fd` and carry `names`: one entry per index whose name is `s`, in order. -/
def filesFor (fd : Nat) (names : List String) (s : String) : List GoFile :=
  match names with
  | [] => []
  | n :: rest => (if n = s then [mkFile fd n] else []) ++ filesFor (fd + 1) rest s

/-- The listeners the loop appends under name `s`: one entry per index whose
name is `s` and whose descriptor converts, in order. -/
def lisFor (conv : Nat → Bool) (fd : Nat) (names : List String) (s : String) :
    List GoListener :=
  match names with
  | [] => []
  | n :: rest =>
      (if n = s ∧ conv fd then [{ file := mkFile fd n }] else []) ++
        lisFor conv (fd + 1) rest s

/-- The listener-conversion error after the loop: each failing descriptor
overwrites it, so it ends as the last failure, or the initial value. -/
def lisErrAfter (conv : Nat → Bool) (fd : Nat) (names : List String)
    (e : Option GoError) : Option GoError :=
  match names with
  | [] => e
  | _ :: rest =>
      lisErrAfter conv (fd + 1) rest
        (if conv fd then e else some (GoError.listenFail fd))

theorem processOne_files (conv : Nat → Bool) (fd : Nat) (n : String) (ls : LoopSt) :
    (processOne conv fd n ls).files = mapAppend ls.files n (mkFile fd n) := by
  unfold processOne
  cases h : conv fd <;> simp [h]

theorem processOne_listeners (conv : Nat → Bool) (fd : Nat) (n : String) (ls : LoopSt) :
    (processOne conv fd n ls).listeners =
      if conv fd then mapAppend ls.listeners n { file := mkFile fd n }
      else ls.listeners := by
  unfold processOne
  cases h : conv fd <;> simp [h]

theorem processOne_listenError (conv : Nat → Bool) (fd : Nat) (n : String) (ls : LoopSt) :
    (processOne conv fd n ls).listenError =
      if conv fd then ls.listenError else some (GoError.listenFail fd) := by
  unfold processOne
  cases h : conv fd <;> simp [h]

theorem processOne_cloexec (conv : Nat → Bool) (fd : Nat) (n : String) (ls : LoopSt) :
    (processOne conv fd n ls).cloexec = ls.cloexec ++ [fd] := by
  unfold processOne
  cases h : conv fd <;> simp [h]

theorem processFds_files (conv : Nat → Bool) (names : List String) :
    ∀ (fd : Nat) (ls : LoopSt) (s : String),
      (processFds conv fd names ls).files s = ls.files s ++ filesFor fd names s := by
  induction names with
  | nil => intro fd ls s; simp [processFds, filesFor]
  | cons n rest ih =>
      intro fd ls s
      rw [processFds, ih, filesFor, processOne_files]
      rcases eq_or_ne s n with h | h
      · subst h; simp [mapAppend]
      · simp [mapAppend, h, Ne.symm h]

theorem processFds_listeners (conv : Nat → Bool) (names : List String) :
    ∀ (fd : Nat) (ls : LoopSt) (s : String),
      (processFds conv fd names ls).listeners s =
        ls.listeners s ++ lisFor conv fd names s := by
  induction names with
  | nil => intro fd ls s; simp [processFds, lisFor]
  | cons n rest ih =>
      intro fd ls s
      rw [processFds, ih, lisFor, processOne_listeners]
      cases hc : conv fd with
      | false => simp [hc]
      | true =>
          rcases eq_or_ne s n with h | h
          · subst h; simp [mapAppend]
          · simp [mapAppend, h, Ne.symm h]

theorem processFds_listenError (conv : Nat → Bool) (names : List String) :
    ∀ (fd : Nat) (ls : LoopSt),
      (processFds conv fd names ls).listenError =
        lisErrAfter conv fd names ls.listenError := by
  induction names with
  | nil => intro fd ls; simp [processFds, lisErrAfter]
  | cons n rest ih =>
      intro fd ls
      rw [processFds, ih, lisErrAfter, processOne_listenError]

theorem processFds_cloexec (conv : Nat → Bool) (names : List String) :
    ∀ (fd : Nat) (ls : LoopSt),
      (processFds conv fd names ls).cloexec =
        ls.cloexec ++ List.range' fd names.length := by
  induction names with
  | nil => intro fd ls; simp [processFds]
  | cons n rest ih =>
      intro fd ls
      rw [processFds, ih, processOne_cloexec]
      simp [List.range'_succ]

theorem filesFor_length (names : List String) :
    ∀ (fd : Nat) (s : String), (filesFor fd names s).length = names.count s := by
  induction names with
  | nil => intro fd s; simp [filesFor]
  | cons n rest ih =>
      intro fd s
      rw [filesFor]
      rcases eq_or_ne n s with h | h
      · subst h; simp [ih, List.count_cons]
      · simp [ih, List.count_cons, h]

theorem filesFor_getD_mem (names : List String) :
    ∀ (fd i : Nat), i < names.length →
      mkFile (fd + i) (names.getD i "") ∈ filesFor fd names (names.getD i "") := by
  induction names with
  | nil => intro fd i h; simp at h
  | cons n rest ih =>
      intro fd i h
      cases i with
      | zero => simp [filesFor]
      | succ j =>
          have hj : j < rest.length := by simpa using h
          have hmem := ih (fd + 1) j hj
          have harith : fd + 1 + j = fd + (j + 1) := by omega
          rw [harith] at hmem
          simp only [List.getD_cons_succ, filesFor]
          exact List.mem_append_right _ hmem

theorem lisFor_getD_mem (conv : Nat → Bool) (names : List String) :
    ∀ (fd i : Nat), i < names.length → conv (fd + i) = true →
      ({ file := mkFile (fd + i) (names.getD i "") } : GoListener) ∈
        lisFor conv fd names (names.getD i "") := by
  induction names with
  | nil => intro fd i h _; simp at h
  | cons n rest ih =>
      intro fd i h hc
      cases i with
      | zero => simp at hc; simp [lisFor, hc]
      | succ j =>
          have hj : j < rest.length := by simpa using h
          have harith : fd + 1 + j = fd + (j + 1) := by omega
          have hmem := ih (fd + 1) j hj (by rw [harith]; exact hc)
          rw [harith] at hmem
          simp only [List.getD_cons_succ, lisFor]
          exact List.mem_append_right _ hmem

theorem filesFor_fd_bounds (names : List String) :
    ∀ (fd : Nat) (s : String) (f : GoFile), f ∈ filesFor fd names s →
      fd ≤ f.fd ∧ f.fd < fd + names.length := by
  induction names with
  | nil => intro fd s f h; simp [filesFor] at h
  | cons n rest ih =>
      intro fd s f h
      rw [filesFor] at h
      rcases List.mem_append.mp h with h1 | h2
      · have : f = mkFile fd n := by
          rcases eq_or_ne n s with he | he
          · simpa [he] using h1
          · simp [he] at h1
        subst this
        simp [mkFile]
      · have := ih (fd + 1) s f h2
        constructor <;> [omega; (simp only [List.length_cons]; omega)]

theorem lisFor_fd_bounds (conv : Nat → Bool) (names : List String) :
    ∀ (fd : Nat) (s : String) (l : GoListener), l ∈ lisFor conv fd names s →
      fd ≤ l.file.fd ∧ l.file.fd < fd + names.length := by
  induction names with
  | nil => intro fd s l h; simp [lisFor] at h
  | cons n rest ih =>
      intro fd s l h
      rw [lisFor] at h
      rcases List.mem_append.mp h with h1 | h2
      · have : l = { file := mkFile fd n } := by
          by_cases he : n = s ∧ conv fd
          · simpa [he] using h1
          · simp [he] at h1
        subst this
        simp [mkFile]
      · have := ih (fd + 1) s l h2
        constructor <;> [omega; (simp only [List.length_cons]; omega)]

theorem lisFor_eq_map_filesFor (conv : Nat → Bool) (names : List String) :
    ∀ (fd : Nat), (∀ i, i < names.length → conv (fd + i) = true) →
      ∀ (s : String),
        lisFor conv fd names s =
          (filesFor fd names s).map (fun f => { file := f }) := by
  induction names with
  | nil => intro fd _ s; simp [lisFor, filesFor]
  | cons n rest ih =>
      intro fd hc s
      have hc0 : conv fd = true := by simpa using hc 0 (by simp)
      have hcr : ∀ i, i < rest.length → conv (fd + 1 + i) = true := by
        intro i hi
        have := hc (i + 1) (by simp; omega)
        simpa [Nat.add_assoc, Nat.add_comm 1 i] using this
      rw [lisFor, filesFor, ih (fd + 1) hcr s]
      rcases eq_or_ne n s with he | he
      · simp [he, hc0]
      · simp [he]

theorem lisErrAfter_isSome (conv : Nat → Bool) (names : List String) :
    ∀ (fd : Nat) (e : Option GoError), e.isSome →
      (lisErrAfter conv fd names e).isSome := by
  induction names with
  | nil => intro fd e h; simpa [lisErrAfter] using h
  | cons n rest ih =>
      intro fd e h
      rw [lisErrAfter]
      apply ih
      cases hc : conv fd <;> simp [h]

theorem lisErrAfter_isSome_of_fail (conv : Nat → Bool) (names : List String) :
    ∀ (fd i : Nat) (e : Option GoError), i < names.length →
      conv (fd + i) = false → (lisErrAfter conv fd names e).isSome := by
  induction names with
  | nil => intro fd i e h _; simp at h
  | cons n rest ih =>
      intro fd i e h hc
      cases i with
      | zero =>
          simp at hc
          rw [lisErrAfter]
          exact lisErrAfter_isSome conv rest (fd + 1) _ (by simp [hc])
      | succ j =>
          have hj : j < rest.length := by simpa using h
          have harith : fd + 1 + j = fd + (j + 1) := by omega
          rw [lisErrAfter]
          exact ih (fd + 1) j _ hj (by rw [harith]; exact hc)

/-! ## Characterisation of `parse` -/

/-- The list of names the descriptor loop runs over: `LISTEN_FDS` entries,
all empty when `LISTEN_FDNAMES` is unset, else the colon-split names
(truncated to the loop bound, which only matters for a negative count). -/
def loopNames (fdNamesStr : String) (n : Int) : List String :=
  (if fdNamesStr = "" then List.replicate n.toNat "" else splitColon fdNamesStr).take
    n.toNat

/-- The state `parse` produces on the structurally-valid path: both maps
set from the loop, environment cleared. -/
def parsedState (w : World) (st : St) (names : List String) : St :=
  let ls := processFds w.conv firstFD names
    { files := fun _ => [], listeners := fun _ => [],
      listenError := st.listenError, cloexec := st.cloexec }
  { st with files := some ls.files, listeners := some ls.listeners,
            listenError := ls.listenError, cloexec := ls.cloexec,
            envPid := none, envFds := none, envFdNames := none }

theorem parse_cached (w : World) (st : St) (m : String → List GoFile)
    (h : st.files = some m) : parse w st = st := by
  unfold parse
  rw [h]

theorem parse_initSt_success (w : World) (pidS nfdsS : String)
    (fdn : Option String) (n : Int)
    (hpne : pidS ≠ "") (hnne : nfdsS ≠ "")
    (hpid : atoi pidS = some w.pid) (hn : atoi nfdsS = some n)
    (harity : ¬(getenv fdn ≠ "" ∧ 0 < n ∧
        ((splitColon (getenv fdn)).length : Int) ≠ n)) :
    parse w (initSt (some pidS) (some nfdsS) fdn) =
      parsedState w (initSt (some pidS) (some nfdsS) fdn)
        (loopNames (getenv fdn) n) := by
  unfold parse parsedState loopNames initSt
  simp only [getenv, Option.getD_some]
  rw [if_neg (by simp [hpne, hnne])]
  simp only [hpid, hn]
  rw [if_neg (by simp)]
  rw [if_neg (by simpa [getenv] using harity)]

theorem parse_empty (w : World) (st : St) (hf : st.files = none)
    (h : getenv st.envPid = "" ∨ getenv st.envFds = "") : parse w st = st := by
  simp only [parse, hf]
  rw [if_pos h]

theorem parse_initSt_badPid (w : World) (pidS nfdsS : String) (fdn : Option String)
    (hpne : pidS ≠ "") (hnne : nfdsS ≠ "") (hbad : atoi pidS = none) :
    parse w (initSt (some pidS) (some nfdsS) fdn) =
      { initSt (some pidS) (some nfdsS) fdn with
          parseError := some (GoError.badListenPid pidS) } := by
  unfold parse initSt
  simp only [getenv, Option.getD_some]
  rw [if_neg (by simp [hpne, hnne])]
  simp only [hbad]

theorem parse_initSt_pidMismatch (w : World) (pidS nfdsS : String)
    (fdn : Option String) (p : Int)
    (hpne : pidS ≠ "") (hnne : nfdsS ≠ "")
    (hpid : atoi pidS = some p) (hne : p ≠ w.pid) :
    parse w (initSt (some pidS) (some nfdsS) fdn) =
      { initSt (some pidS) (some nfdsS) fdn with
          parseError := some GoError.errPIDMismatch } := by
  unfold parse initSt
  simp only [getenv, Option.getD_some]
  rw [if_neg (by simp [hpne, hnne])]
  simp only [hpid]
  rw [if_pos hne]

theorem parse_initSt_badFds (w : World) (pidS nfdsS : String) (fdn : Option String)
    (hpne : pidS ≠ "") (hnne : nfdsS ≠ "")
    (hpid : atoi pidS = some w.pid) (hbad : atoi nfdsS = none) :
    parse w (initSt (some pidS) (some nfdsS) fdn) =
      { initSt (some pidS) (some nfdsS) fdn with
          parseError := some (GoError.badListenFds nfdsS) } := by
  unfold parse initSt
  simp only [getenv, Option.getD_some]
  rw [if_neg (by simp [hpne, hnne])]
  simp only [hpid]
  rw [if_neg (by simp)]
  simp only [hbad]

theorem parse_initSt_badNames (w : World) (pidS nfdsS : String) (fdn : Option String)
    (n : Int)
    (hpne : pidS ≠ "") (hnne : nfdsS ≠ "")
    (hpid : atoi pidS = some w.pid) (hn : atoi nfdsS = some n)
    (harity : getenv fdn ≠ "" ∧ 0 < n ∧
      ((splitColon (getenv fdn)).length : Int) ≠ n) :
    parse w (initSt (some pidS) (some nfdsS) fdn) =
      { initSt (some pidS) (some nfdsS) fdn with
          parseError := some GoError.badFdNames } := by
  unfold parse initSt
  simp only [getenv, Option.getD_some]
  rw [if_neg (by simp [hpne, hnne])]
  simp only [hpid, hn]
  rw [if_neg (by simp)]
  rw [if_pos (by simpa [getenv] using harity)]

theorem lisErrAfter_all_true (conv : Nat → Bool) (names : List String) :
    ∀ (fd : Nat) (e : Option GoError),
      (∀ i, i < names.length → conv (fd + i) = true) →
      lisErrAfter conv fd names e = e := by
  induction names with
  | nil => intro fd e _; rfl
  | cons n rest ih =>
      intro fd e hc
      have hc0 : conv fd = true := by simpa using hc 0 (by simp)
      rw [lisErrAfter, if_pos hc0]
      exact ih (fd + 1) e (fun i hi => by
        have := hc (i + 1) (by simp only [List.length_cons]; omega)
        simpa [Nat.add_assoc, Nat.add_comm 1 i] using this)

theorem lisErrAfter_single (conv : Nat → Bool) (names : List String) :
    ∀ (fd k : Nat) (e : Option GoError), k < names.length →
      conv (fd + k) = false →
      (∀ i, i < names.length → i ≠ k → conv (fd + i) = true) →
      lisErrAfter conv fd names e = some (GoError.listenFail (fd + k)) := by
  induction names with
  | nil => intro fd k e h _ _; simp at h
  | cons n rest ih =>
      intro fd k e hk hf hok
      cases k with
      | zero =>
          simp only [Nat.add_zero] at hf
          rw [lisErrAfter, if_neg (by simp [hf])]
          rw [lisErrAfter_all_true conv rest (fd + 1) _ (fun i hi => by
            have := hok (i + 1) (by simp only [List.length_cons]; omega)
              (Nat.succ_ne_zero i)
            simpa [Nat.add_assoc, Nat.add_comm 1 i] using this)]
          simp
      | succ j =>
          have hc0 : conv fd = true := by
            simpa using hok 0 (by simp) (by omega)
          rw [lisErrAfter, if_pos hc0]
          have harith : fd + 1 + j = fd + (j + 1) := by omega
          rw [ih (fd + 1) j e (by simpa using hk) (by rw [harith]; exact hf)
            (fun i hi hne => by
              have := hok (i + 1) (by simp only [List.length_cons]; omega)
                (by omega)
              simpa [Nat.add_assoc, Nat.add_comm 1 i] using this)]
          rw [harith]

theorem Files_out (w : World) (st : St) :
    (Files w st).2 = ((parse w st).files, (parse w st).parseError) := rfl

theorem Files_fst (w : World) (st : St) : (Files w st).1 = parse w st := rfl

theorem Listeners_fst (w : World) (st : St) : (Listeners w st).1 = parse w st := by
  unfold Listeners
  dsimp only
  split <;> rfl

theorem Listeners_out (w : World) (st : St) :
    (Listeners w st).2 =
      ((parse w st).listeners,
        if (parse w st).parseError.isSome then (parse w st).parseError
        else (parse w st).listenError) := by
  unfold Listeners
  dsimp only
  cases h : (parse w st).parseError <;> simp [h]

theorem OneListener_fst (w : World) (name : String) (st : St) :
    (OneListener w name st).1 = parse w st := by
  unfold OneListener
  dsimp only
  split
  · rfl
  · split
    · rfl
    · split <;> rfl

theorem OneListener_err (w : World) (name : String) (st : St) (e : GoError)
    (hp : (parse w st).parseError = none)
    (hl : (parse w st).listenError = some e) :
    (OneListener w name st).2 = (none, some e) := by
  unfold OneListener
  dsimp only
  rw [hp, hl]

/-! ## Claim C1: write-once parse outcome -/

/-- A process with pid 4 where every descriptor converts to a listener. -/
def c1World : World :=
  { pid := 4, conv := fun _ => true, netListen := fun _ _ => (none, none) }

/-- Process start with no activation environment. -/
def c1StEmpty : St := initSt none none none

/-- The state after a first accessor call on the empty environment, with the
activation variables set afterwards (e.g. by the process itself). -/
def c1StAfter : St :=
  { (Listeners c1World c1StEmpty).1 with envPid := some "4", envFds := some "1" }

/-- C1, counterexample: the first `Listeners` call ends in the parsed-empty
outcome (no error, both maps still nil), yet a subsequent `Listeners` call
re-reads the environment variables and re-executes the parse: with the
variables now set it returns a populated listener map instead of the cached
empty outcome.  The guard in `parse` only caches the parsed-ok outcome. -/
theorem c1_counterexample :
    (Listeners c1World c1StEmpty).2.2 = none ∧
    (Listeners c1World c1StEmpty).1.files = none ∧
    (Listeners c1World c1StEmpty).1.listeners = none ∧
    (Listeners c1World c1StAfter).2.1.isSome = true ∧
    mapGet (Listeners c1World c1StAfter).2.1 "" = [{ file := mkFile 3 "" }] := by
  refine ⟨rfl, rfl, rfl, rfl, ?_⟩
  decide

/-- C1 (amended): the parse outcome is write-once only once the file map has
been populated (the parsed-ok outcome, including partial listener-conversion
failure).  From such a state, `parse` — and hence every accessor — returns
the cached maps and cached errors unchanged, without reading the environment
(the result is the same for every world); after a parsed-empty or
structurally failed first call the parse re-runs and re-reads the
environment on each subsequent accessor call. -/
theorem c1_writeonce_after_populated (w : World) (name : String) (st : St)
    (m : String → List GoFile) (h : st.files = some m) :
    parse w st = st ∧
    Files w st = (st, (st.files, st.parseError)) ∧
    (Listeners w st).1 = st ∧
    (Listeners w st).2.1 = st.listeners ∧
    (Listeners w st).2.2 =
      (if st.parseError.isSome then st.parseError else st.listenError) ∧
    (OneListener w name st).1 = st := by
  have hp := parse_cached w st m h
  refine ⟨hp, ?_, ?_, ?_, ?_, ?_⟩
  · unfold Files; rw [hp]
  · rw [Listeners_fst, hp]
  · rw [Listeners_out, hp]
  · rw [Listeners_out, hp]
  · rw [OneListener_fst, hp]

/-- A parsed-ok state reached from a valid one-descriptor environment. -/
def c1StParsed : St := parse c1World (initSt (some "4") (some "1") none)

/-- C1 witness: the amended theorem applied to a concrete parsed-ok state. -/
theorem c1_writeonce_witness :
    parse c1World c1StParsed = c1StParsed ∧
    (Listeners c1World c1StParsed).2.1 = c1StParsed.listeners :=
  have h := c1_writeonce_after_populated c1World "x" c1StParsed
    (mapAppend (fun _ => []) "" (mkFile 3 "")) rfl
  ⟨h.1, h.2.2.2.1⟩

/-! ## Claim C2: `OneListener` for an unaffected name -/

/-- Pid 4; descriptor 4 cannot be converted to a listener, descriptor 3 can. -/
def c2World : World :=
  { pid := 4, conv := fun fd => fd != 4, netListen := fun _ _ => (none, none) }

/-- Two descriptors named `a` (fd 3, converts) and `b` (fd 4, fails). -/
def c2St : St := initSt (some "4") (some "2") (some "a:b")

/-- C2, counterexample: every descriptor of name `a` converted successfully
(its listener is registered), yet `OneListener "a"` returns the conversion
error of descriptor 4 (name `b`) and no listener: the error is surfaced for
every name, not only for names whose descriptors failed. -/
theorem c2_counterexample :
    mapGet (parse c2World c2St).listeners "a" = [{ file := mkFile 3 "a" }] ∧
    (parse c2World c2St).parseError = none ∧
    (OneListener c2World "a" c2St).2 = (none, some (GoError.listenFail 4)) := by
  decide

/-- C2 (amended): whenever the environment is structurally valid but some
descriptor failed listener conversion, `OneListener` surfaces the recorded
conversion error for every requested name — including names all of whose
descriptors converted successfully — returning no listener. -/
theorem c2_error_surfaced_globally (w : World) (name : String) (st : St)
    (e : GoError)
    (hp : (parse w st).parseError = none)
    (hl : (parse w st).listenError = some e) :
    (OneListener w name st).2 = (none, some e) :=
  OneListener_err w name st e hp hl

/-- C2 witness: the amended theorem at the concrete two-descriptor state. -/
theorem c2_error_surfaced_globally_witness :
    (OneListener c2World "a" c2St).2 = (none, some (GoError.listenFail 4)) :=
  c2_error_surfaced_globally c2World "a" c2St (GoError.listenFail 4)
    (by decide) (by decide)

/-! ## Claim C4: malformed `LISTEN_FDS` -/

/-- Pid 7, all descriptors convertible. -/
def c4World : World :=
  { pid := 7, conv := fun _ => true, netListen := fun _ _ => (none, none) }

/-- Matching pid, `LISTEN_FDS = "-2"`. -/
def c4St : St := initSt (some "7") (some "-2") none

/-- Matching pid, `LISTEN_FDS` empty. -/
def c4StEmpty : St := initSt (some "7") (some "") none

/-- C4, counterexample: two `LISTEN_FDS` strings that do not denote a
non-negative decimal integer yet produce no `MalformedEnvironment` error.
`"-2"` is parsed by Go's `Atoi`, so both accessors return empty maps and no
error; the empty string makes the parse take the nothing-to-do early return
(before `Atoi` is ever called), so both accessors return nil maps and no
error. -/
theorem c4_counterexample :
    atoi "-2" = some (-2) ∧
    (Files c4World c4St).2.2 = none ∧
    (Listeners c4World c4St).2.2 = none ∧
    (Files c4World c4St).2.1.isSome = true ∧
    (parse c4World c4St).cloexec = [] ∧
    atoi "" = none ∧
    (Files c4World c4StEmpty).2.2 = none ∧
    (Listeners c4World c4StEmpty).2.2 = none ∧
    (Files c4World c4StEmpty).2.1.isSome = false ∧
    (parse c4World c4StEmpty).cloexec = [] := by
  decide

/-- C4 (amended): with `LISTEN_PID` matching and `LISTEN_FDS` set non-empty,
for every `LISTEN_FDS` string on which `Atoi` fails (non-numeric, sign
without digits, 64-bit overflow), both `Files()` and `Listeners()` return
the malformed-`LISTEN_FDS` error, the maps stay nil and no descriptor is
touched.  The two excluded families really do behave differently: strings
denoting negative integers parse successfully and yield empty maps with no
error, and an empty `LISTEN_FDS` takes the nothing-to-do early return before
`Atoi` runs, likewise with no error (see the counterexample). -/
theorem c4_malformed_fds (w : World) (pidS nfdsS : String) (fdn : Option String)
    (hpne : pidS ≠ "") (hnne : nfdsS ≠ "")
    (hpid : atoi pidS = some w.pid) (hbad : atoi nfdsS = none) :
    (Files w (initSt (some pidS) (some nfdsS) fdn)).2 =
      (none, some (GoError.badListenFds nfdsS)) ∧
    (Listeners w (initSt (some pidS) (some nfdsS) fdn)).2 =
      (none, some (GoError.badListenFds nfdsS)) ∧
    (parse w (initSt (some pidS) (some nfdsS) fdn)).cloexec = [] := by
  have h := parse_initSt_badFds w pidS nfdsS fdn hpne hnne hpid hbad
  refine ⟨?_, ?_, ?_⟩
  · rw [Files_out, h]; rfl
  · rw [Listeners_out, h]; rfl
  · rw [h]; rfl

/-- C4 witness: the amended theorem at `LISTEN_FDS = "x"`. -/
theorem c4_malformed_fds_witness :
    (Files c4World (initSt (some "7") (some "x") none)).2 =
      (none, some (GoError.badListenFds "x")) ∧
    (Listeners c4World (initSt (some "7") (some "x") none)).2 =
      (none, some (GoError.badListenFds "x")) ∧
    (parse c4World (initSt (some "7") (some "x") none)).cloexec = [] :=
  c4_malformed_fds c4World "7" "x" none (by decide) (by decide)
    (by decide) (by decide)

/-! ## Claim C6: PID mismatch -/

/-- Pid 5. -/
def c6World : World :=
  { pid := 5, conv := fun _ => true, netListen := fun _ _ => (none, none) }

/-- `LISTEN_PID = "6"` (≠ 5) but `LISTEN_FDS` empty. -/
def c6St : St := initSt (some "6") (some "") none

/-- C6, counterexample: `LISTEN_PID` parses to 6, different from our pid 5,
but because `LISTEN_FDS` is empty the parse returns in the nothing-to-do
branch before the pid check: all three accessors report no error at all
instead of the claimed `PIDMismatch`. -/
theorem c6_counterexample :
    atoi "6" = some 6 ∧
    (6 : Int) ≠ c6World.pid ∧
    (Listeners c6World c6St).2.2 = none ∧
    (Files c6World c6St).2.2 = none ∧
    (OneListener c6World "" c6St).2.2 = none := by
  decide

/-- C6 (amended): provided `LISTEN_FDS` is set non-empty, for every
`LISTEN_PID` value parsing to an integer different from the process's own
id, `Listeners()`, `Files()` and `OneListener()` all return exactly the
distinguished `ErrPIDMismatch` value, regardless of the contents of
`LISTEN_FDS` and `LISTEN_FDNAMES`. -/
theorem c6_pid_mismatch_all (w : World) (pidS nfdsS : String)
    (fdn : Option String) (p : Int) (name : String)
    (hpid : atoi pidS = some p) (hne : p ≠ w.pid) (hnne : nfdsS ≠ "") :
    (Listeners w (initSt (some pidS) (some nfdsS) fdn)).2.2 =
      some GoError.errPIDMismatch ∧
    (Files w (initSt (some pidS) (some nfdsS) fdn)).2.2 =
      some GoError.errPIDMismatch ∧
    (OneListener w name (initSt (some pidS) (some nfdsS) fdn)).2 =
      (none, some GoError.errPIDMismatch) := by
  have hpne : pidS ≠ "" := by
    intro hq
    rw [hq, (show atoi "" = none by decide)] at hpid
    exact Option.noConfusion hpid
  have h := parse_initSt_pidMismatch w pidS nfdsS fdn p hpne hnne hpid hne
  refine ⟨?_, ?_, ?_⟩
  · rw [Listeners_out, h]; rfl
  · rw [Files_out, h]
  · unfold OneListener
    dsimp only
    rw [h]

/-- C6 witness: the amended theorem at `LISTEN_PID = "6"`, own pid 5,
`LISTEN_FDS = "1"`. -/
theorem c6_pid_mismatch_witness :
    (Listeners c6World (initSt (some "6") (some "1") none)).2.2 =
      some GoError.errPIDMismatch ∧
    (Files c6World (initSt (some "6") (some "1") none)).2.2 =
      some GoError.errPIDMismatch ∧
    (OneListener c6World "q" (initSt (some "6") (some "1") none)).2 =
      (none, some GoError.errPIDMismatch) :=
  c6_pid_mismatch_all c6World "6" "1" none 6 "q" (by decide) (by decide)
    (by decide)

/-! ## Claim C10: structurally failed parse has no side effects -/

/-- C10: on every structural failure path — non-numeric `LISTEN_PID`, pid
mismatch, non-numeric `LISTEN_FDS`, or a name-count/descriptor-count
mismatch — `parse` returns before any side effect: the three environment
variables keep their values, no descriptor's close-on-exec flag is set, and
both maps stay nil, with the structural error recorded. -/
theorem c10_error_paths_no_side_effects (w : World) (pidS nfdsS : String)
    (fdn : Option String)
    (hpne : pidS ≠ "") (hnne : nfdsS ≠ "")
    (hfail :
      atoi pidS = none ∨
      (∃ p, atoi pidS = some p ∧ p ≠ w.pid) ∨
      (atoi pidS = some w.pid ∧ atoi nfdsS = none) ∨
      (atoi pidS = some w.pid ∧ ∃ n, atoi nfdsS = some n ∧
        getenv fdn ≠ "" ∧ 0 < n ∧
        ((splitColon (getenv fdn)).length : Int) ≠ n)) :
    (parse w (initSt (some pidS) (some nfdsS) fdn)).envPid = some pidS ∧
    (parse w (initSt (some pidS) (some nfdsS) fdn)).envFds = some nfdsS ∧
    (parse w (initSt (some pidS) (some nfdsS) fdn)).envFdNames = fdn ∧
    (parse w (initSt (some pidS) (some nfdsS) fdn)).cloexec = [] ∧
    (parse w (initSt (some pidS) (some nfdsS) fdn)).files = none ∧
    (parse w (initSt (some pidS) (some nfdsS) fdn)).listeners = none ∧
    (parse w (initSt (some pidS) (some nfdsS) fdn)).parseError.isSome = true := by
  rcases hfail with h | ⟨p, hp, hne⟩ | ⟨hp, hn⟩ | ⟨hp, n, hn, ha1, ha2, ha3⟩
  · rw [parse_initSt_badPid w pidS nfdsS fdn hpne hnne h]
    exact ⟨rfl, rfl, rfl, rfl, rfl, rfl, rfl⟩
  · rw [parse_initSt_pidMismatch w pidS nfdsS fdn p hpne hnne hp hne]
    exact ⟨rfl, rfl, rfl, rfl, rfl, rfl, rfl⟩
  · rw [parse_initSt_badFds w pidS nfdsS fdn hpne hnne hp hn]
    exact ⟨rfl, rfl, rfl, rfl, rfl, rfl, rfl⟩
  · rw [parse_initSt_badNames w pidS nfdsS fdn n hpne hnne hp hn ⟨ha1, ha2, ha3⟩]
    exact ⟨rfl, rfl, rfl, rfl, rfl, rfl, rfl⟩

/-- C10 witness: the theorem at the concrete failing input
`LISTEN_PID = "abc"` (non-numeric), `LISTEN_FDS = "1"`. -/
theorem c10_no_side_effects_witness :
    (parse c4World (initSt (some "abc") (some "1") (some "n"))).envPid =
      some "abc" ∧
    (parse c4World (initSt (some "abc") (some "1") (some "n"))).cloexec = [] ∧
    (parse c4World (initSt (some "abc") (some "1") (some "n"))).files = none :=
  have h := c10_error_paths_no_side_effects c4World "abc" "1" (some "n")
    (by decide) (by decide) (Or.inl (by decide))
  ⟨h.1, h.2.2.2.1, h.2.2.2.2.1⟩

/-! ## Claim C7: environment cleared on structurally valid parse -/

/-- C7: whenever the parse passes all structural validation (pid matches,
count parses, name arity matches) — with no assumption on listener
conversion, so partial conversion failure is included — all three
environment variables are unset in the state returned by the first accessor
call, and a subsequent accessor call leaves that state unchanged (they
remain cleared). -/
theorem c7_env_cleared (w : World) (pidS nfdsS : String) (fdn : Option String)
    (n : Int)
    (hpne : pidS ≠ "") (hnne : nfdsS ≠ "")
    (hpid : atoi pidS = some w.pid) (hn : atoi nfdsS = some n)
    (harity : ¬(getenv fdn ≠ "" ∧ 0 < n ∧
        ((splitColon (getenv fdn)).length : Int) ≠ n)) :
    (Files w (initSt (some pidS) (some nfdsS) fdn)).1.envPid = none ∧
    (Files w (initSt (some pidS) (some nfdsS) fdn)).1.envFds = none ∧
    (Files w (initSt (some pidS) (some nfdsS) fdn)).1.envFdNames = none ∧
    (Listeners w ((Files w (initSt (some pidS) (some nfdsS) fdn)).1)).1 =
      (Files w (initSt (some pidS) (some nfdsS) fdn)).1 := by
  have h := parse_initSt_success w pidS nfdsS fdn n hpne hnne hpid hn harity
  rw [Files_fst, h]
  refine ⟨rfl, rfl, rfl, ?_⟩
  rw [Listeners_fst]
  exact parse_cached w _ _ rfl

/-- Pid 8; descriptor 4 fails listener conversion. -/
def c7World : World :=
  { pid := 8, conv := fun fd => fd != 4, netListen := fun _ _ => (none, none) }

/-- C7 witness: concrete two-descriptor environment with one failing
conversion; the environment is cleared and stays cleared. -/
theorem c7_env_cleared_witness :
    (Files c7World (initSt (some "8") (some "2") (some "a:b"))).1.envPid = none ∧
    (Files c7World (initSt (some "8") (some "2") (some "a:b"))).1.envFds = none ∧
    (Files c7World (initSt (some "8") (some "2") (some "a:b"))).1.envFdNames =
      none ∧
    (Listeners c7World
        ((Files c7World (initSt (some "8") (some "2") (some "a:b"))).1)).1 =
      (Files c7World (initSt (some "8") (some "2") (some "a:b"))).1 :=
  c7_env_cleared c7World "8" "2" (some "a:b") 2 (by decide) (by decide)
    (by decide) (by decide) (by decide)

/-! ## Claim C8: `LISTEN_FDS = "0"` is lenient about names -/

/-- C8: with a matching pid and `LISTEN_FDS = "0"`, both `Listeners()` and
`Files()` return empty maps and no error for every value of
`LISTEN_FDNAMES`, including malformed ones whose name count does not match
the (zero) descriptor count: the arity check is skipped when the count is
not positive. -/
theorem c8_zero_fds (w : World) (pidS : String) (fdn : Option String)
    (hpne : pidS ≠ "") (hpid : atoi pidS = some w.pid) :
    (Listeners w (initSt (some pidS) (some "0") fdn)).2 =
      (some (fun _ => []), none) ∧
    (Files w (initSt (some pidS) (some "0") fdn)).2 =
      (some (fun _ => []), none) := by
  have h := parse_initSt_success w pidS "0" fdn 0 hpne (by decide) hpid
    (by decide) (by simp)
  have hl : loopNames (getenv fdn) 0 = [] := by
    unfold loopNames
    simp
  rw [hl] at h
  rw [Listeners_out, Files_out, h]
  exact ⟨rfl, rfl⟩

/-- Pid 3, everything convertible. -/
def c8World : World :=
  { pid := 3, conv := fun _ => true, netListen := fun _ _ => (none, none) }

/-- C8 witness: `LISTEN_FDNAMES = "x:y:z"` is malformed for a zero count,
yet both accessors return empty maps and no error. -/
theorem c8_zero_fds_witness :
    (Listeners c8World (initSt (some "3") (some "0") (some "x:y:z"))).2 =
      (some (fun _ => []), none) ∧
    (Files c8World (initSt (some "3") (some "0") (some "x:y:z"))).2 =
      (some (fun _ => []), none) :=
  c8_zero_fds c8World "3" (some "x:y:z") (by decide) (by decide)

/-! ## Claim C9: `Listen` dispatch -/

/-- C9: for every address beginning with `"&"`, `Listen` returns exactly
what `OneListener` returns for the rest of the string, except that the
nil-listener/nil-error outcome is replaced by a `NotFound` error; for every
other address it delegates to `net.Listen` with the given network kind and
address, leaving the state untouched. -/
theorem c9_listen_dispatch (w : World) (netw laddr : String) (st : St) :
    Listen w netw laddr st =
      if hasAmpPrefix laddr then
        ((OneListener w (dropFirst laddr) st).1,
          if (OneListener w (dropFirst laddr) st).2.1.isNone ∧
              (OneListener w (dropFirst laddr) st).2.2.isNone then
            ((none : Option GoListener),
              some (GoError.notFound (dropFirst laddr)))
          else (OneListener w (dropFirst laddr) st).2)
      else (st, w.netListen netw laddr) := by
  unfold Listen
  dsimp only
  by_cases h : hasAmpPrefix laddr = true
  · rw [if_pos h, if_pos h]
    by_cases hc : ((OneListener w (dropFirst laddr) st).2.1.isNone = true ∧
        (OneListener w (dropFirst laddr) st).2.2.isNone = true)
    · have h1 := Option.isNone_iff_eq_none.mp hc.1
      rw [if_pos hc, if_pos hc, h1]
    · rw [if_neg hc, if_neg hc]
  · rw [if_neg h, if_neg h]

/-! ## Claim C3: index alignment of the two maps -/

/-- Pid 4; descriptor 3 fails listener conversion, descriptor 4 converts. -/
def c3World : World :=
  { pid := 4, conv := fun fd => fd != 3, netListen := fun _ _ => (none, none) }

/-- Two descriptors both named `x`; the first fails conversion. -/
def c3St : St := initSt (some "4") (some "2") (some "x:x")

/-- C3, counterexample: with two descriptors under the same name where only
the first fails conversion, the populated maps are not index-aligned: the
listener stored at index 0 of `listeners["x"]` wraps the file stored at
index 1 of `files["x"]`, not the one at index 0. -/
theorem c3_counterexample :
    mapGet (parse c3World c3St).files "x" = [mkFile 3 "x", mkFile 4 "x"] ∧
    mapGet (parse c3World c3St).listeners "x" = [{ file := mkFile 4 "x" }] ∧
    mkFile 4 "x" ≠ mkFile 3 "x" := by
  decide

/-- C3 (amended): in every populated outcome both maps contain entries only
for descriptors in `[firstFD, firstFD + FDCount)`; and whenever every
descriptor in that range converts successfully, the two maps are
index-aligned — for every name, the listener list is exactly the file list
mapped through listener construction.  When some descriptor fails, its file
keeps its slot in the file list while the listener list skips it, so
alignment of indices holds only in the all-converted case. -/
theorem c3_alignment (w : World) (pidS nfdsS : String) (fdn : Option String)
    (n : Int)
    (hpne : pidS ≠ "") (hnne : nfdsS ≠ "")
    (hpid : atoi pidS = some w.pid) (hn : atoi nfdsS = some n)
    (harity : ¬(getenv fdn ≠ "" ∧ 0 < n ∧
        ((splitColon (getenv fdn)).length : Int) ≠ n)) :
    (∀ s f, f ∈ mapGet (parse w (initSt (some pidS) (some nfdsS) fdn)).files s →
        firstFD ≤ f.fd ∧ f.fd < firstFD + n.toNat) ∧
    (∀ s l,
        l ∈ mapGet (parse w (initSt (some pidS) (some nfdsS) fdn)).listeners s →
        firstFD ≤ l.file.fd ∧ l.file.fd < firstFD + n.toNat) ∧
    ((∀ i, i < n.toNat → w.conv (firstFD + i) = true) →
      ∀ s, mapGet (parse w (initSt (some pidS) (some nfdsS) fdn)).listeners s =
        (mapGet (parse w (initSt (some pidS) (some nfdsS) fdn)).files s).map
          (fun f => { file := f })) := by
  have h := parse_initSt_success w pidS nfdsS fdn n hpne hnne hpid hn harity
  rw [h]
  have hlen : (loopNames (getenv fdn) n).length ≤ n.toNat := by
    unfold loopNames
    rw [List.length_take]
    exact min_le_left _ _
  have hfiles : ∀ s,
      mapGet (parsedState w (initSt (some pidS) (some nfdsS) fdn)
        (loopNames (getenv fdn) n)).files s =
      filesFor firstFD (loopNames (getenv fdn) n) s := by
    intro s
    show (processFds w.conv firstFD (loopNames (getenv fdn) n) _).files s = _
    rw [processFds_files]
    rfl
  have hlis : ∀ s,
      mapGet (parsedState w (initSt (some pidS) (some nfdsS) fdn)
        (loopNames (getenv fdn) n)).listeners s =
      lisFor w.conv firstFD (loopNames (getenv fdn) n) s := by
    intro s
    show (processFds w.conv firstFD (loopNames (getenv fdn) n) _).listeners s = _
    rw [processFds_listeners]
    rfl
  refine ⟨?_, ?_, ?_⟩
  · intro s f hf
    rw [hfiles] at hf
    have := filesFor_fd_bounds (loopNames (getenv fdn) n) firstFD s f hf
    omega
  · intro s l hl
    rw [hlis] at hl
    have := lisFor_fd_bounds w.conv (loopNames (getenv fdn) n) firstFD s l hl
    omega
  · intro hconv s
    rw [hlis, hfiles]
    exact lisFor_eq_map_filesFor w.conv (loopNames (getenv fdn) n) firstFD
      (fun i hi => hconv i (lt_of_lt_of_le hi hlen)) s

/-- Pid 4, all descriptors convertible. -/
def c3AllWorld : World :=
  { pid := 4, conv := fun _ => true, netListen := fun _ _ => (none, none) }

/-- C3 witness: the amended theorem at a concrete fully-convertible
two-descriptor environment. -/
theorem c3_alignment_witness :
    (firstFD ≤ (mkFile 3 "a").fd ∧ (mkFile 3 "a").fd < firstFD + (2 : Int).toNat) ∧
    mapGet (parse c3AllWorld (initSt (some "4") (some "2") (some "a:b"))).listeners
        "a" =
      (mapGet (parse c3AllWorld (initSt (some "4") (some "2") (some "a:b"))).files
          "a").map (fun f => { file := f }) := by
  have h := c3_alignment c3AllWorld "4" "2" (some "a:b") 2 (by decide)
    (by decide) (by decide) (by decide) (by decide)
  exact ⟨h.1 "a" (mkFile 3 "a") (by decide), h.2.2 (by decide) "a"⟩

/-! ## Claim C5: partial listener-conversion failure -/

/-- C5: with a structurally valid environment of `n` declared names where
exactly the descriptor at index `k` fails listener conversion, `Files()`
returns all `n` file entries under their declared names with no error
(the entry count under each name equals that name's multiplicity, and the
file for each index sits under its declared name), while `Listeners()`
surfaces the conversion error of the failing descriptor and
`OneListener` of the affected name returns `(nil, that error)`; the
remaining descriptors are processed and their listeners registered. -/
theorem c5_partial_conversion (w : World) (pidS nfdsS namesS : String)
    (n : Int) (k : Nat)
    (hpne : pidS ≠ "") (hnne : nfdsS ≠ "") (hnsne : namesS ≠ "")
    (hpid : atoi pidS = some w.pid) (hn : atoi nfdsS = some n)
    (hlen : ((splitColon namesS).length : Int) = n)
    (hk : k < n.toNat)
    (hfail : w.conv (firstFD + k) = false)
    (hok : ∀ i, i < n.toNat → i ≠ k → w.conv (firstFD + i) = true) :
    (Files w (initSt (some pidS) (some nfdsS) (some namesS))).2.2 = none ∧
    (∀ s,
      (mapGet (Files w (initSt (some pidS) (some nfdsS) (some namesS))).2.1
          s).length = (splitColon namesS).count s) ∧
    (∀ i, i < n.toNat →
      mkFile (firstFD + i) ((splitColon namesS).getD i "") ∈
        mapGet (Files w (initSt (some pidS) (some nfdsS) (some namesS))).2.1
          ((splitColon namesS).getD i "")) ∧
    (Listeners w (initSt (some pidS) (some nfdsS) (some namesS))).2.2 =
      some (GoError.listenFail (firstFD + k)) ∧
    (OneListener w ((splitColon namesS).getD k "")
        (initSt (some pidS) (some nfdsS) (some namesS))).2 =
      (none, some (GoError.listenFail (firstFD + k))) ∧
    (∀ i, i < n.toNat → i ≠ k →
      ({ file := mkFile (firstFD + i) ((splitColon namesS).getD i "") } :
          GoListener) ∈
        mapGet
          (parse w (initSt (some pidS) (some nfdsS) (some namesS))).listeners
          ((splitColon namesS).getD i "")) := by
  have harity : ¬(getenv (some namesS) ≠ "" ∧ 0 < n ∧
      ((splitColon (getenv (some namesS))).length : Int) ≠ n) := by
    push_neg
    intro _ _
    simpa [getenv] using hlen
  have h := parse_initSt_success w pidS nfdsS (some namesS) n hpne hnne hpid hn
    harity
  have hnlen : (splitColon namesS).length = n.toNat := by
    rw [← hlen]
    simp
  have hloop : loopNames (getenv (some namesS)) n = splitColon namesS := by
    unfold loopNames
    rw [if_neg (by simpa [getenv] using hnsne)]
    rw [← hnlen]
    exact List.take_length _
  rw [hloop] at h
  have hfiles : ∀ s,
      mapGet (parsedState w (initSt (some pidS) (some nfdsS) (some namesS))
        (splitColon namesS)).files s = filesFor firstFD (splitColon namesS) s := by
    intro s
    show (processFds w.conv firstFD (splitColon namesS) _).files s = _
    rw [processFds_files]
    rfl
  have hlis : ∀ s,
      mapGet (parsedState w (initSt (some pidS) (some nfdsS) (some namesS))
        (splitColon namesS)).listeners s =
      lisFor w.conv firstFD (splitColon namesS) s := by
    intro s
    show (processFds w.conv firstFD (splitColon namesS) _).listeners s = _
    rw [processFds_listeners]
    rfl
  have hkl : k < (splitColon namesS).length := by omega
  have hokl : ∀ i, i < (splitColon namesS).length → i ≠ k →
      w.conv (firstFD + i) = true := fun i hi hne => hok i (by omega) hne
  have hlerr : (parsedState w (initSt (some pidS) (some nfdsS) (some namesS))
      (splitColon namesS)).listenError =
      some (GoError.listenFail (firstFD + k)) := by
    show (processFds w.conv firstFD (splitColon namesS) _).listenError = _
    rw [processFds_listenError]
    exact lisErrAfter_single w.conv (splitColon namesS) firstFD k _ hkl hfail hokl
  have hperr : (parsedState w (initSt (some pidS) (some nfdsS) (some namesS))
      (splitColon namesS)).parseError = none := rfl
  refine ⟨?_, ?_, ?_, ?_, ?_, ?_⟩
  · rw [Files_out, h]
    exact hperr
  · intro s
    rw [Files_out, h]
    dsimp only
    rw [hfiles]
    exact filesFor_length (splitColon namesS) firstFD s
  · intro i hi
    rw [Files_out, h]
    dsimp only
    rw [hfiles]
    exact filesFor_getD_mem (splitColon namesS) firstFD i (by omega)
  · rw [Listeners_out, h, hperr, hlerr]
    rfl
  · exact OneListener_err w _ _ _ (by rw [h]; exact hperr) (by rw [h]; exact hlerr)
  · intro i hi hne
    rw [h, hlis]
    exact lisFor_getD_mem w.conv (splitColon namesS) firstFD i (by omega)
      (hok i hi hne)

/-- Pid 9; descriptor 4 (index 1) fails listener conversion. -/
def c5World : World :=
  { pid := 9, conv := fun fd => fd != 4, netListen := fun _ _ => (none, none) }

/-- C5 witness: three descriptors named `a`, `b`, `a`; index 1 fails.
`Files` keeps all three entries with no error; `Listeners`/`OneListener`
surface the conversion error of fd 4; fds 3 and 5 are registered. -/
theorem c5_partial_conversion_witness :
    (Files c5World (initSt (some "9") (some "3") (some "a:b:a"))).2.2 = none ∧
    (mapGet (Files c5World (initSt (some "9") (some "3") (some "a:b:a"))).2.1
        "a").length = (splitColon "a:b:a").count "a" ∧
    mkFile (firstFD + 1) ((splitColon "a:b:a").getD 1 "") ∈
      mapGet (Files c5World (initSt (some "9") (some "3") (some "a:b:a"))).2.1
        ((splitColon "a:b:a").getD 1 "") ∧
    (Listeners c5World (initSt (some "9") (some "3") (some "a:b:a"))).2.2 =
      some (GoError.listenFail (firstFD + 1)) ∧
    (OneListener c5World ((splitColon "a:b:a").getD 1 "")
        (initSt (some "9") (some "3") (some "a:b:a"))).2 =
      (none, some (GoError.listenFail (firstFD + 1))) ∧
    ({ file := mkFile (firstFD + 2) ((splitColon "a:b:a").getD 2 "") } :
        GoListener) ∈
      mapGet
        (parse c5World (initSt (some "9") (some "3") (some "a:b:a"))).listeners
        ((splitColon "a:b:a").getD 2 "") := by
  have h := c5_partial_conversion c5World "9" "3" "a:b:a" 3 1 (by decide)
    (by decide) (by decide) (by decide) (by decide) (by decide) (by decide)
    (by decide) (by decide)
  exact ⟨h.1, h.2.1 "a", h.2.2.1 1 (by decide), h.2.2.2.1, h.2.2.2.2.1,
    h.2.2.2.2.2 2 (by decide) (by decide)⟩

end Systemd
